import Mathlib

/-!
Shallow embedding of the authoritative game server in
`src/game/src/backend/server.cts` (the "Fog of Tank" two-player
turn-based tank battle).  Pure data is translated directly; the mutable
`GameState` objects become explicit state passing; JavaScript numbers
used for coordinates, slot ids and counters become `Int` (all relevant
arithmetic is small and exact); the `Map`s of the `GameManager` become
association lists with first-match lookup.  Broadcast / logging side
effects carry no game state and are dropped.
-/

set_option maxHeartbeats 1000000

/-- `BOARD_SIZE = 8` from the source. -/
def BOARD_SIZE : Int := 8

/-- `TANKS_PER_PLAYER = 3` from the source. -/
def TANKS_PER_PLAYER : Nat := 3

/-- `EXPLOSION_RADIUS = 1` from the source. -/
def EXPLOSION_RADIUS : Int := 1

/-- `enum CellState` from the source. -/
inductive CellState where
  | empty
  | tank
  | hit
  | miss
  | revealed
deriving DecidableEq

/-- `enum GamePhase` from the source. -/
inductive GamePhase where
  | waiting
  | placement
  | battle
  | gameOver
deriving DecidableEq

/-- `interface Position`. -/
structure Position where
  x : Int
  y : Int
deriving DecidableEq

/-- A player board: row-major list of rows, `board[y][x]`. -/
abbrev Board := List (List CellState)

/-- `Utils.createEmptyBoard`. -/
def Utils.createEmptyBoard : Board :=
  List.replicate 8 (List.replicate 8 CellState.empty)

/-- `Utils.isValidPosition`. -/
def Utils.isValidPosition (x y : Int) : Bool :=
  0 ≤ x && 0 ≤ y && x < BOARD_SIZE && y < BOARD_SIZE

/-- Read `board[y][x]` (all reads in the source are guarded by
`isValidPosition`, so the default value is never observed). -/
def Board.getCell (b : Board) (x y : Int) : CellState :=
  (b.getD y.toNat []).getD x.toNat CellState.empty

/-- Write `board[y][x] = v` (guarded writes only, as in the source). -/
def Board.setCell (b : Board) (x y : Int) (v : CellState) : Board :=
  b.set y.toNat ((b.getD y.toNat []).set x.toNat v)

/-- `interface Player`; the `ws : WebSocket` handle becomes an opaque
connection identifier (`Nat`). -/
structure Player where
  id : Int
  ws : Nat
  board : Board
  visibleEnemyBoard : Board
  tanks : List Position
  tanksAlive : Int
  ready : Bool
  name : String
  joinTime : Nat
deriving DecidableEq

/-- `interface GameState`. -/
structure GameState where
  id : String
  players : List Player
  actionTaken : Bool
  currentTurn : Int
  phase : GamePhase
  winner : Option Int
  moveCount : Nat
  startTime : Nat
  createdAt : Nat
deriving DecidableEq

/-- `game.players[playerId]` — JavaScript array indexing, `undefined`
(here `none`) when out of range or negative. -/
def getPlayer (ps : List Player) (i : Int) : Option Player :=
  if i < 0 then none else ps[i.toNat]?

/-- `game.players[i] = p` (in-place update of the slot). -/
def setPlayer (ps : List Player) (i : Int) (p : Player) : List Player :=
  ps.set i.toNat p

/-- `GameManager.switchTurn`. -/
def switchTurn (game : GameState) : GameState :=
  { game with
      currentTurn := 1 - game.currentTurn
      moveCount := game.moveCount + 1
      actionTaken := false }

/-- `GameManager.placeTank`, after the `games.get(gameId)` lookup:
the per-session placement step. -/
def placeTank (game : GameState) (playerId x y : Int) : Bool × GameState :=
  if game.phase ≠ GamePhase.placement then (false, game) else
  match getPlayer game.players playerId with
  | none => (false, game)
  | some player =>
    if player.tanks.length ≥ TANKS_PER_PLAYER then (false, game) else
    if ¬ Utils.isValidPosition x y then (false, game) else
    if Board.getCell player.board x y ≠ CellState.empty then (false, game) else
    let player1 : Player :=
      { player with
          board := Board.setCell player.board x y CellState.tank
          tanks := player.tanks ++ [⟨x, y⟩]
          tanksAlive := player.tanksAlive + 1 }
    let player2 : Player :=
      if player1.tanks.length = TANKS_PER_PLAYER then { player1 with ready := true }
      else player1
    let game1 : GameState := { game with players := setPlayer game.players playerId player2 }
    let game2 : GameState :=
      if game1.players.length = 2 ∧ game1.players.all (fun p => p.ready) then
        { game1 with phase := GamePhase.battle }
      else game1
    (true, game2)

/-- `GameManager.moveTank`, after the `games.get(gameId)` lookup. -/
def moveTank (game : GameState) (playerId fromX fromY toX toY : Int) :
    Bool × GameState :=
  if game.phase ≠ GamePhase.battle ∨ game.currentTurn ≠ playerId ∨
      game.actionTaken then (false, game) else
  match getPlayer game.players playerId with
  | none => (false, game)
  | some player =>
    if ¬ (Utils.isValidPosition fromX fromY && Utils.isValidPosition toX toY) then
      (false, game) else
    if Board.getCell player.board fromX fromY ≠ CellState.tank ∨
        Board.getCell player.board toX toY ≠ CellState.empty then (false, game) else
    let board1 := Board.setCell (Board.setCell player.board fromX fromY CellState.empty)
      toX toY CellState.tank
    let tanks1 :=
      match player.tanks.findIdx? (fun t => t.x == fromX && t.y == fromY) with
      | some i => player.tanks.set i ⟨toX, toY⟩
      | none => player.tanks
    let player1 : Player := { player with board := board1, tanks := tanks1 }
    let game1 : GameState := { game with players := setPlayer game.players playerId player1 }
    (true, switchTurn { game1 with actionTaken := true })

/-- The loop body of `GameManager.revealArea` for a single cell. -/
def revealCell (attacker defender : Player) (x y : Int) : Player :=
  if Utils.isValidPosition x y then
    let defenderCell := Board.getCell defender.board x y
    let v : CellState :=
      if defenderCell = CellState.tank then CellState.tank
      else if defenderCell = CellState.hit then CellState.hit
      else if defenderCell = CellState.miss then CellState.miss
      else CellState.revealed
    { attacker with visibleEnemyBoard := Board.setCell attacker.visibleEnemyBoard x y v }
  else attacker

/-- The `(dx, dy)` offsets visited by `revealArea`'s nested loops
(`dy` outer, `dx` inner, each from `-EXPLOSION_RADIUS` to
`EXPLOSION_RADIUS` with `EXPLOSION_RADIUS = 1`). -/
def revealOffsets : List (Int × Int) :=
  [(-1, -1), (0, -1), (1, -1), (-1, 0), (0, 0), (1, 0), (-1, 1), (0, 1), (1, 1)]

/-- `GameManager.revealArea`. -/
def revealArea (attacker defender : Player) (centerX centerY : Int) : Player :=
  revealOffsets.foldl
    (fun a d => revealCell a defender (centerX + d.1) (centerY + d.2)) attacker

/-- The distinct outcomes of `GameManager.bomb` (the source returns the
result strings; `gameOver = true` exactly for `hitVictory`). -/
inductive BombResult where
  | notYourTurn
  | invalidPlayers
  | outOfBounds
  | alreadyBombed
  | hitVictory
  | hitResult
  | missResult
deriving DecidableEq

/-- `GameManager.bomb`, after the `games.get(gameId)` lookup. -/
def bomb (game : GameState) (playerId x y : Int) : BombResult × GameState :=
  if game.phase ≠ GamePhase.battle ∨ game.currentTurn ≠ playerId ∨
      game.actionTaken then (BombResult.notYourTurn, game) else
  match getPlayer game.players playerId, getPlayer game.players (1 - playerId) with
  | some attacker, some defender =>
    if ¬ Utils.isValidPosition x y then (BombResult.outOfBounds, game) else
    if Board.getCell attacker.visibleEnemyBoard x y = CellState.hit ∨
        Board.getCell attacker.visibleEnemyBoard x y = CellState.miss then
      (BombResult.alreadyBombed, game) else
    let targetCell := Board.getCell defender.board x y
    if targetCell = CellState.tank then
      let defender1 : Player :=
        { defender with
            board := Board.setCell defender.board x y CellState.hit
            tanksAlive := defender.tanksAlive - 1
            tanks := defender.tanks.filter (fun t => !(t.x == x && t.y == y)) }
      let game1 : GameState :=
        { game with players := setPlayer game.players (1 - playerId) defender1 }
      if defender1.tanksAlive = 0 then
        (BombResult.hitVictory,
          { game1 with phase := GamePhase.gameOver, winner := some playerId })
      else
        let attacker1 := revealArea attacker defender1 x y
        let game2 : GameState :=
          { game1 with players := setPlayer game1.players playerId attacker1 }
        (BombResult.hitResult, switchTurn { game2 with actionTaken := true })
    else
      let defender1 : Player :=
        if targetCell = CellState.empty then
          { defender with board := Board.setCell defender.board x y CellState.miss }
        else defender
      let game1 : GameState :=
        { game with players := setPlayer game.players (1 - playerId) defender1 }
      let attacker1 := revealArea attacker defender1 x y
      let game2 : GameState :=
        { game1 with players := setPlayer game1.players playerId attacker1 }
      (BombResult.missResult, switchTurn { game2 with actionTaken := true })
  | _, _ => (BombResult.invalidPlayers, game)

/-! ## The session registry (`GameManager`'s maps)

`games : Map<string, GameState>` and
`playerConnections : Map<WebSocket, connection>` become association
lists with first-match lookup; `Map.set` replaces the first binding or
appends, `Map.delete` removes the key.  The set of raw connections and
the periodic cleanup timer carry no gameplay state and are omitted. -/

/-- `gameId.toUpperCase()`: uppercase every character (written over
`String.data` so that concrete instances evaluate). -/
def jsToUpper (s : String) : String := String.mk (s.data.map Char.toUpper)

/-- First-match association-list lookup (`Map.get`). -/
def assocLookup {α β : Type} [DecidableEq α] : List (α × β) → α → Option β
  | [], _ => none
  | (a, b) :: t, k => if a = k then some b else assocLookup t k

/-- Replace-or-append association-list update (`Map.set`). -/
def assocSet {α β : Type} [DecidableEq α] : List (α × β) → α → β → List (α × β)
  | [], k, v => [(k, v)]
  | (a, b) :: t, k, v => if a = k then (k, v) :: t else (a, b) :: assocSet t k v

/-- Key removal (`Map.delete`). -/
def assocErase {α β : Type} [DecidableEq α] (l : List (α × β)) (k : α) :
    List (α × β) :=
  l.filter (fun p => decide (p.1 ≠ k))

/-- The mutable state of the `GameManager` class. -/
structure GameManager where
  games : List (String × GameState)
  playerConnections : List (Nat × String × Int)
deriving DecidableEq

/-- `GameManager.leaveGame`.  `wsOpen` gives each connection's
`readyState === OPEN` at call time; `ws` is the leaving connection.
The "notify other players" sends carry no state and are dropped. -/
def GameManager.leaveGame (m : GameManager) (wsOpen : Nat → Bool) (ws : Nat) :
    GameManager :=
  match assocLookup m.playerConnections ws with
  | none => m
  | some (gameId, _playerId) =>
    let m1 : GameManager :=
      match assocLookup m.games gameId with
      | none => m
      | some game =>
        let activePlayers := game.players.filter (fun p => wsOpen p.ws && p.ws ≠ ws)
        match activePlayers with
        | [] =>
          { m with games := assocErase m.games gameId }
        | [survivor] =>
          if game.phase ≠ GamePhase.waiting then
            let game1 : GameState :=
              { game with
                  phase := GamePhase.waiting
                  players := [{ survivor with id := 0 }]
                  currentTurn := 0 }
            { m with
                games := assocSet m.games gameId game1
                playerConnections :=
                  assocSet m.playerConnections survivor.ws (gameId, 0) }
          else m
        | _ => m
    { m1 with playerConnections := assocErase m1.playerConnections ws }

/-- The outcome field of `GameManager.joinGame`'s return value. -/
inductive JoinOutcome where
  | gameNotFound
  | gameIsFull
  | joinedAs (p : Player)
deriving DecidableEq

/-- `GameManager.joinGame`.  `defaultName` stands for the random
`Utils.getRandomName()` draw, `now` for `Date.now()`; `wsOpen` is the
connection-liveness snapshot used by the nested `leaveGame` call.
After the idempotent leave the source keeps working on the same `game`
object; `assocLookup ... |>.getD game` reproduces that aliasing (the
object is in the map unless the leave deleted this very game, in which
case the orphaned original is used and nothing is written back).
The `DEBUG` block is dead code (`DEBUG = false`) and omitted. -/
def GameManager.joinGame (m : GameManager) (gameId0 : String) (ws : Nat)
    (playerName : Option String) (defaultName : String) (now : Nat)
    (wsOpen : Nat → Bool) : JoinOutcome × GameManager :=
  let gameId := jsToUpper gameId0
  match assocLookup m.games gameId with
  | none => (JoinOutcome.gameNotFound, m)
  | some game =>
    if game.players.length ≥ 2 then (JoinOutcome.gameIsFull, m) else
    let m1 : GameManager :=
      match assocLookup m.playerConnections ws with
      | some _ => GameManager.leaveGame m wsOpen ws
      | none => m
    let game1 := (assocLookup m1.games gameId).getD game
    let player : Player :=
      { id := game1.players.length
        ws := ws
        board := Utils.createEmptyBoard
        visibleEnemyBoard := Utils.createEmptyBoard
        tanks := []
        tanksAlive := 0
        ready := false
        name := match playerName with
                | some n => if n = "" then defaultName else n
                | none => defaultName
        joinTime := now }
    let game2 : GameState := { game1 with players := game1.players ++ [player] }
    let game3 : GameState :=
      if game2.players.length = 2 then
        { game2 with phase := GamePhase.placement, startTime := now }
      else game2
    let games2 :=
      if (assocLookup m1.games gameId).isSome then assocSet m1.games gameId game3
      else m1.games
    (JoinOutcome.joinedAs player,
      { games := games2
        playerConnections := assocSet m1.playerConnections ws (gameId, player.id) })

/-- `GameManager.placeTank` as dispatched from `handleMessage`: the
`games.get(gameId)` lookup around the per-session step (named `ById`
here because inside `GameManager.placeTank` the plain name `placeTank`
would denote the definition itself). -/
def GameManager.placeTankById (m : GameManager) (gameId : String)
    (playerId x y : Int) : Bool × GameManager :=
  match assocLookup m.games gameId with
  | none => (false, m)
  | some game =>
    let r := placeTank game playerId x y
    (r.1, { m with games := assocSet m.games gameId r.2 })

/-! ## Concrete fixture states

States built by running the embedded operations themselves from a
fresh two-player session, used to instantiate the theorems below on
concrete inputs. -/

/-- The `Player` record `joinGame` builds for a fresh join. -/
def freshPlayer (i : Int) (w : Nat) (nm : String) : Player :=
  { id := i, ws := w, board := Utils.createEmptyBoard,
    visibleEnemyBoard := Utils.createEmptyBoard, tanks := [], tanksAlive := 0,
    ready := false, name := nm, joinTime := 0 }

/-- A fresh two-player session in placement phase (the state after two
joins). -/
def gPlacement : GameState :=
  { id := "ROOM", players := [freshPlayer 0 0 "A", freshPlayer 1 1 "B"],
    actionTaken := false, currentTurn := 0, phase := GamePhase.placement,
    winner := none, moveCount := 0, startTime := 0, createdAt := 0 }

/-- Run a list of `(playerId, x, y)` placements. -/
def placeSeq (g : GameState) (l : List (Int × Int × Int)) : GameState :=
  l.foldl (fun g t => (placeTank g t.1 t.2.1 t.2.2).2) g

/-- A battle-phase session reached by six placements: slot 0's tanks at
(0,0), (1,0), (2,0); slot 1's tanks at (5,5), (0,7), (7,7). -/
def gBattle : GameState :=
  placeSeq gPlacement [(0,0,0),(0,1,0),(0,2,0),(1,5,5),(1,0,7),(1,7,7)]

/-- Slot 0 bombs (4,5): a miss whose reveal radius covers slot 1's tank
at (5,5). -/
def gAfterB1 : GameState := (bomb gBattle 0 4 5).2

/-- Slot 1 then moves its tank from (5,5) to (4,4). -/
def gAfterM1 : GameState := (moveTank gAfterB1 1 5 5 4 4).2

/-- Slot 0 then bombs (5,4): a miss whose reveal radius covers the now
vacated (5,5). -/
def gAfterB2 : GameState := (bomb gAfterM1 0 5 4).2

/-- A throwaway default for extracting players out of `Option`. -/
def dummyPlayer : Player := freshPlayer 0 0 ""

/-- Slot 0's `Player` record in `gAfterM1`. -/
def p0AfterM1 : Player := (getPlayer gAfterM1.players 0).getD dummyPlayer

/-- Slot 1's `Player` record in `gAfterM1`. -/
def p1AfterM1 : Player := (getPlayer gAfterM1.players (1 - 0)).getD dummyPlayer

/-! ## C2: the already-attacked path of `bomb` -/

/-- C2.  In Battle phase, with the attack issued by the current turn
owner, the per-turn guard clear, both player slots present and the
coordinates in bounds, `bomb` returns the already-attacked result iff
the attacker's observed board holds `Hit` or `Miss` at `(x, y)`, and on
that path the session state is returned unchanged, so a retry yields
the same rejection. -/
theorem bomb_alreadyBombed_iff_observed (g : GameState) (pid x y : Int)
    (a d : Player)
    (hphase : g.phase = GamePhase.battle) (hturn : g.currentTurn = pid)
    (hguard : g.actionTaken = false)
    (ha : getPlayer g.players pid = some a)
    (hd : getPlayer g.players (1 - pid) = some d)
    (hxy : Utils.isValidPosition x y = true) :
    ((bomb g pid x y).1 = BombResult.alreadyBombed ↔
      (Board.getCell a.visibleEnemyBoard x y = CellState.hit ∨
       Board.getCell a.visibleEnemyBoard x y = CellState.miss)) ∧
    ((Board.getCell a.visibleEnemyBoard x y = CellState.hit ∨
      Board.getCell a.visibleEnemyBoard x y = CellState.miss) →
      (bomb g pid x y).2 = g) := by
  by_cases hobs : Board.getCell a.visibleEnemyBoard x y = CellState.hit ∨
      Board.getCell a.visibleEnemyBoard x y = CellState.miss
  · constructor
    · simp [bomb, ha, hd, hphase, hturn, hguard, hxy, hobs]
    · intro _
      simp [bomb, ha, hd, hphase, hturn, hguard, hxy, hobs]
  · refine ⟨?_, fun hc => absurd hc hobs⟩
    by_cases ht : Board.getCell d.board x y = CellState.tank
    · by_cases hz : d.tanksAlive - 1 = 0
      · simp [bomb, ha, hd, hphase, hturn, hguard, hxy, hobs, ht, hz]
      · simp [bomb, ha, hd, hphase, hturn, hguard, hxy, hobs, ht, hz]
    · simp [bomb, ha, hd, hphase, hturn, hguard, hxy, hobs, ht]

/-- Witness for C2 at the concrete state `gAfterM1`, where slot 0 has
already bombed (4,5): retrying that attack is rejected as
already-bombed with the state unchanged. -/
theorem bomb_alreadyBombed_iff_observed_witness :
    ((bomb gAfterM1 0 4 5).1 = BombResult.alreadyBombed ↔
      (Board.getCell p0AfterM1.visibleEnemyBoard 4 5 = CellState.hit ∨
       Board.getCell p0AfterM1.visibleEnemyBoard 4 5 = CellState.miss)) ∧
    ((Board.getCell p0AfterM1.visibleEnemyBoard 4 5 = CellState.hit ∨
      Board.getCell p0AfterM1.visibleEnemyBoard 4 5 = CellState.miss) →
      (bomb gAfterM1 0 4 5).2 = gAfterM1) :=
  bomb_alreadyBombed_iff_observed gAfterM1 0 4 5 p0AfterM1 p1AfterM1
    (by decide) (by decide) (by decide) (by decide) (by decide) (by decide)

/-! ## Helper lemmas: success and rejection shapes of `moveTank` / `bomb` -/

/-- A successful `moveTank` ran with the guards satisfied and ended in
`switchTurn`: the turn flips, the move counter increments, the guard is
clear again and the phase is untouched. -/
lemma moveTank_succ (g : GameState) (pid fx fy tx ty : Int)
    (h : (moveTank g pid fx fy tx ty).1 = true) :
    g.phase = GamePhase.battle ∧ g.currentTurn = pid ∧ g.actionTaken = false ∧
    (moveTank g pid fx fy tx ty).2.currentTurn = 1 - pid ∧
    (moveTank g pid fx fy tx ty).2.moveCount = g.moveCount + 1 ∧
    (moveTank g pid fx fy tx ty).2.actionTaken = false ∧
    (moveTank g pid fx fy tx ty).2.phase = g.phase := by
  unfold moveTank at h ⊢
  split at h
  · exact absurd h (by simp)
  · rename_i hguard
    push_neg at hguard
    obtain ⟨h1, h2, h3⟩ := hguard
    split at h
    · exact absurd h (by simp)
    · split at h
      · exact absurd h (by simp)
      · split at h
        · exact absurd h (by simp)
        · rename_i player hplayer hpos hcells
          refine ⟨h1, h2, by simpa using h3, ?_⟩
          rw [if_neg (by simp [h1, h2, h3] : ¬ (g.phase ≠ GamePhase.battle ∨ g.currentTurn ≠ pid ∨ g.actionTaken = true))]
          simp only [hplayer]
          rw [if_neg hpos, if_neg hcells]
          simp [switchTurn, h2]

/-- A `bomb` that returned `hitResult` or `missResult` ran with the
guards satisfied and ended in `switchTurn`. -/
lemma bomb_succ (g : GameState) (pid x y : Int)
    (h : (bomb g pid x y).1 = BombResult.hitResult ∨
         (bomb g pid x y).1 = BombResult.missResult) :
    g.phase = GamePhase.battle ∧ g.currentTurn = pid ∧ g.actionTaken = false ∧
    (bomb g pid x y).2.currentTurn = 1 - pid ∧
    (bomb g pid x y).2.moveCount = g.moveCount + 1 ∧
    (bomb g pid x y).2.actionTaken = false ∧
    (bomb g pid x y).2.phase = g.phase := by
  unfold bomb at h ⊢
  split at h
  · exact absurd h (by simp)
  · rename_i hguard
    push_neg at hguard
    obtain ⟨h1, h2, h3⟩ := hguard
    split at h
    · rename_i attacker defender hatt hdef
      split at h
      · exact absurd h (by simp)
      · rename_i hpos
        split at h
        · exact absurd h (by simp)
        · rename_i hobs
          refine ⟨h1, h2, by simpa using h3, ?_⟩
          rw [if_neg (by simp [h1, h2, h3] : ¬ (g.phase ≠ GamePhase.battle ∨ g.currentTurn ≠ pid ∨ g.actionTaken = true))]
          simp only [hatt, hdef]
          rw [if_neg hpos, if_neg hobs]
          split
          · rename_i htank
            split
            · rename_i hz
              rw [if_pos htank] at h
              rw [if_pos hz] at h
              exact absurd h (by simp)
            · simp [switchTurn, h2]
          · simp [switchTurn, h2]
    · exact absurd h (by simp)

/-- A `moveTank` issued by a slot that does not own the turn is
rejected with the session unchanged. -/
lemma moveTank_notOwner (g : GameState) (pid fx fy tx ty : Int)
    (h : g.currentTurn ≠ pid) :
    moveTank g pid fx fy tx ty = (false, g) := by
  unfold moveTank
  rw [if_pos (Or.inr (Or.inl h))]

/-- A `bomb` issued by a slot that does not own the turn is rejected
with the session unchanged. -/
lemma bomb_notOwner (g : GameState) (pid x y : Int)
    (h : g.currentTurn ≠ pid) :
    bomb g pid x y = (BombResult.notYourTurn, g) := by
  unfold bomb
  rw [if_pos (Or.inr (Or.inl h))]

/-- Outside Battle phase every `moveTank` is rejected unchanged. -/
lemma moveTank_wrongPhase (g : GameState) (pid fx fy tx ty : Int)
    (h : g.phase ≠ GamePhase.battle) :
    moveTank g pid fx fy tx ty = (false, g) := by
  unfold moveTank
  rw [if_pos (Or.inl h)]

/-- Outside Battle phase every `bomb` is rejected unchanged. -/
lemma bomb_wrongPhase (g : GameState) (pid x y : Int)
    (h : g.phase ≠ GamePhase.battle) :
    bomb g pid x y = (BombResult.notYourTurn, g) := by
  unfold bomb
  rw [if_pos (Or.inl h)]

/-! ## C3: turn alternation -/

/-- C3.  Every successful move, and every successful attack that does
not end the game, flips the turn owner to the other slot and increments
the move counter; afterwards any further move or attack by the same
slot is rejected with the session unchanged, and in any session a move
or attack from a slot that is not the current turn owner is rejected
with the session unchanged — so two consecutive successful actions from
the same slot are impossible. -/
theorem session_turn_alternation (g : GameState) (pid fx fy tx ty bx bw : Int) :
    ((moveTank g pid fx fy tx ty).1 = true →
      g.currentTurn = pid ∧
      (moveTank g pid fx fy tx ty).2.currentTurn = 1 - pid ∧
      (moveTank g pid fx fy tx ty).2.moveCount = g.moveCount + 1 ∧
      (∀ fx' fy' tx' ty',
        moveTank (moveTank g pid fx fy tx ty).2 pid fx' fy' tx' ty' =
          (false, (moveTank g pid fx fy tx ty).2)) ∧
      (∀ u v, bomb (moveTank g pid fx fy tx ty).2 pid u v =
          (BombResult.notYourTurn, (moveTank g pid fx fy tx ty).2))) ∧
    (((bomb g pid bx bw).1 = BombResult.hitResult ∨
      (bomb g pid bx bw).1 = BombResult.missResult) →
      g.currentTurn = pid ∧
      (bomb g pid bx bw).2.currentTurn = 1 - pid ∧
      (bomb g pid bx bw).2.moveCount = g.moveCount + 1 ∧
      (∀ fx' fy' tx' ty',
        moveTank (bomb g pid bx bw).2 pid fx' fy' tx' ty' =
          (false, (bomb g pid bx bw).2)) ∧
      (∀ u v, bomb (bomb g pid bx bw).2 pid u v =
          (BombResult.notYourTurn, (bomb g pid bx bw).2))) ∧
    (g.currentTurn ≠ pid →
      moveTank g pid fx fy tx ty = (false, g) ∧
      bomb g pid bx bw = (BombResult.notYourTurn, g)) := by
  have hne : (1 : Int) - pid ≠ pid := by omega
  refine ⟨?_, ?_, ?_⟩
  · intro h
    obtain ⟨_, hturn, _, hflip, hcount, _, _⟩ := moveTank_succ g pid fx fy tx ty h
    refine ⟨hturn, hflip, hcount, ?_, ?_⟩
    · intro fx' fy' tx' ty'
      exact moveTank_notOwner _ pid fx' fy' tx' ty' (by rw [hflip]; exact hne)
    · intro u v
      exact bomb_notOwner _ pid u v (by rw [hflip]; exact hne)
  · intro h
    obtain ⟨_, hturn, _, hflip, hcount, _, _⟩ := bomb_succ g pid bx bw h
    refine ⟨hturn, hflip, hcount, ?_, ?_⟩
    · intro fx' fy' tx' ty'
      exact moveTank_notOwner _ pid fx' fy' tx' ty' (by rw [hflip]; exact hne)
    · intro u v
      exact bomb_notOwner _ pid u v (by rw [hflip]; exact hne)
  · intro h
    exact ⟨moveTank_notOwner g pid fx fy tx ty h, bomb_notOwner g pid bx bw h⟩

/-- Witness for C3: in the concrete battle state `gBattle`, slot 0's
move (1,0)→(1,1) and slot 0's attack at (4,5) both flip the turn to
slot 1 and lock slot 0 out, and slot 1 (not the turn owner in
`gBattle`) is rejected outright. -/
theorem session_turn_alternation_witness :
    (gBattle.currentTurn = 0 ∧
      (moveTank gBattle 0 1 0 1 1).2.currentTurn = 1 - 0 ∧
      (moveTank gBattle 0 1 0 1 1).2.moveCount = gBattle.moveCount + 1 ∧
      (∀ fx' fy' tx' ty',
        moveTank (moveTank gBattle 0 1 0 1 1).2 0 fx' fy' tx' ty' =
          (false, (moveTank gBattle 0 1 0 1 1).2)) ∧
      (∀ u v, bomb (moveTank gBattle 0 1 0 1 1).2 0 u v =
          (BombResult.notYourTurn, (moveTank gBattle 0 1 0 1 1).2))) ∧
    (gBattle.currentTurn = 0 ∧
      (bomb gBattle 0 4 5).2.currentTurn = 1 - 0 ∧
      (bomb gBattle 0 4 5).2.moveCount = gBattle.moveCount + 1 ∧
      (∀ fx' fy' tx' ty',
        moveTank (bomb gBattle 0 4 5).2 0 fx' fy' tx' ty' =
          (false, (bomb gBattle 0 4 5).2)) ∧
      (∀ u v, bomb (bomb gBattle 0 4 5).2 0 u v =
          (BombResult.notYourTurn, (bomb gBattle 0 4 5).2))) ∧
    (moveTank gBattle 1 5 5 4 4 = (false, gBattle) ∧
      bomb gBattle 1 4 5 = (BombResult.notYourTurn, gBattle)) :=
  ⟨(session_turn_alternation gBattle 0 1 0 1 1 4 5).1 (by decide),
   (session_turn_alternation gBattle 0 1 0 1 1 4 5).2.1 (Or.inr (by decide)),
   (session_turn_alternation gBattle 1 5 5 4 4 4 5).2.2 (by decide)⟩

/-! ## Fixtures for the victory scenario (C4) -/

/-- From `gBattle`, alternating attacks: slot 0 hits (5,5), slot 1 hits
(0,0), slot 0 hits (0,7), slot 1 misses (5,0).  Slot 1 is left with
exactly one tank, at (7,7), and it is slot 0's turn. -/
def gPreVictory : GameState :=
  (bomb (bomb (bomb (bomb gBattle 0 5 5).2 1 0 0).2 0 0 7).2 1 5 0).2

/-- Slot 0's `Player` record in `gPreVictory`. -/
def p0PreVictory : Player := (getPlayer gPreVictory.players 0).getD dummyPlayer

/-- Slot 1's `Player` record in `gPreVictory`. -/
def p1PreVictory : Player := (getPlayer gPreVictory.players (1 - 0)).getD dummyPlayer

/-! ## C4: a final hit ends the game -/

/-- C4.  An attack by the turn owner in Battle phase on an Occupied
cell of a defender whose alive count is 1 returns the victory result:
the phase becomes GameOver, the winner is the attacker's slot, the turn
owner is not switched and the move counter untouched; afterwards every
move and attack from either slot is rejected with the session unchanged
because the phase is no longer Battle. -/
theorem bomb_final_hit_ends_game (g : GameState) (pid x y : Int) (a d : Player)
    (hphase : g.phase = GamePhase.battle) (hturn : g.currentTurn = pid)
    (hguard : g.actionTaken = false)
    (ha : getPlayer g.players pid = some a)
    (hd : getPlayer g.players (1 - pid) = some d)
    (hxy : Utils.isValidPosition x y = true)
    (hobs : ¬ (Board.getCell a.visibleEnemyBoard x y = CellState.hit ∨
               Board.getCell a.visibleEnemyBoard x y = CellState.miss))
    (ht : Board.getCell d.board x y = CellState.tank)
    (halive : d.tanksAlive = 1) :
    (bomb g pid x y).1 = BombResult.hitVictory ∧
    (bomb g pid x y).2.phase = GamePhase.gameOver ∧
    (bomb g pid x y).2.winner = some pid ∧
    (bomb g pid x y).2.currentTurn = g.currentTurn ∧
    (bomb g pid x y).2.moveCount = g.moveCount ∧
    (∀ q fx fy tx ty, moveTank (bomb g pid x y).2 q fx fy tx ty =
        (false, (bomb g pid x y).2)) ∧
    (∀ q u v, bomb (bomb g pid x y).2 q u v =
        (BombResult.notYourTurn, (bomb g pid x y).2)) := by
  have hz : d.tanksAlive - 1 = 0 := by omega
  have hmain : (bomb g pid x y).1 = BombResult.hitVictory ∧
      (bomb g pid x y).2.phase = GamePhase.gameOver ∧
      (bomb g pid x y).2.winner = some pid ∧
      (bomb g pid x y).2.currentTurn = g.currentTurn ∧
      (bomb g pid x y).2.moveCount = g.moveCount := by
    simp [bomb, ha, hd, hphase, hturn, hguard, hxy, hobs, ht, hz]
  refine ⟨hmain.1, hmain.2.1, hmain.2.2.1, hmain.2.2.2.1, hmain.2.2.2.2, ?_, ?_⟩
  · intro q fx fy tx ty
    exact moveTank_wrongPhase _ q fx fy tx ty (by rw [hmain.2.1]; simp)
  · intro q u v
    exact bomb_wrongPhase _ q u v (by rw [hmain.2.1]; simp)

/-- Witness for C4: in `gPreVictory` slot 1 has one tank left, at
(7,7); slot 0's attack there wins the game and freezes the session. -/
theorem bomb_final_hit_ends_game_witness :
    (bomb gPreVictory 0 7 7).1 = BombResult.hitVictory ∧
    (bomb gPreVictory 0 7 7).2.phase = GamePhase.gameOver ∧
    (bomb gPreVictory 0 7 7).2.winner = some 0 ∧
    (bomb gPreVictory 0 7 7).2.currentTurn = gPreVictory.currentTurn ∧
    (bomb gPreVictory 0 7 7).2.moveCount = gPreVictory.moveCount ∧
    (∀ q fx fy tx ty, moveTank (bomb gPreVictory 0 7 7).2 q fx fy tx ty =
        (false, (bomb gPreVictory 0 7 7).2)) ∧
    (∀ q u v, bomb (bomb gPreVictory 0 7 7).2 q u v =
        (BombResult.notYourTurn, (bomb gPreVictory 0 7 7).2)) :=
  bomb_final_hit_ends_game gPreVictory 0 7 7 p0PreVictory p1PreVictory
    (by decide) (by decide) (by decide) (by decide) (by decide) (by decide)
    (by decide) (by decide) (by decide)

/-! ## C8: the second attack in a "turn" -/

/-- C8 counterexample.  In the concrete battle state `gBattle`, slot
0's attack at (4,5) is accepted, but the very same call has already
switched the turn and *cleared* `actionTaken` (via `switchTurn`), so at
no point after the accepted action is the `actionTaken` guard set: the
second call from slot 0 is rejected with the combined not-your-turn
guard (because the turn owner is now slot 1), not with an
ActionAlreadyTaken rejection arising from `actionTaken = true`. -/
theorem bomb_second_call_guard_counterexample :
    (bomb gBattle 0 4 5).1 = BombResult.missResult ∧
    (bomb gBattle 0 4 5).2.actionTaken = false ∧
    (bomb gBattle 0 4 5).2.currentTurn = 1 ∧
    bomb (bomb gBattle 0 4 5).2 0 2 2 =
      (BombResult.notYourTurn, (bomb gBattle 0 4 5).2) := by
  decide

/-- C8 amended.  A `bomb` accepted in Battle phase performs the turn
switch inside the same call: the resulting state has `actionTaken`
cleared and the turn owner flipped, and any second attack by the same
slot before the opponent acts is rejected by the not-your-turn guard
with no state change. -/
theorem bomb_second_call_rejected (g : GameState) (pid x y : Int)
    (h : (bomb g pid x y).1 = BombResult.hitResult ∨
         (bomb g pid x y).1 = BombResult.missResult) :
    (bomb g pid x y).2.actionTaken = false ∧
    (bomb g pid x y).2.currentTurn = 1 - pid ∧
    (∀ u v, bomb (bomb g pid x y).2 pid u v =
        (BombResult.notYourTurn, (bomb g pid x y).2)) := by
  obtain ⟨_, _, _, hflip, _, hguard, _⟩ := bomb_succ g pid x y h
  refine ⟨hguard, hflip, fun u v => ?_⟩
  exact bomb_notOwner _ pid u v (by rw [hflip]; omega)

/-- Witness for the amended C8 at `gBattle`. -/
theorem bomb_second_call_rejected_witness :
    (bomb gBattle 0 4 5).2.actionTaken = false ∧
    (bomb gBattle 0 4 5).2.currentTurn = 1 - 0 ∧
    (∀ u v, bomb (bomb gBattle 0 4 5).2 0 u v =
        (BombResult.notYourTurn, (bomb gBattle 0 4 5).2)) :=
  bomb_second_call_rejected gBattle 0 4 5 (Or.inr (by decide))

/-! ## C9: movement range -/

/-- C9 counterexample.  In `gBattle`, slot 0 moves its tank from (0,0)
all the way to (7,7) — Chebyshev distance 7, the largest possible on
the 8×8 board — and the move is accepted, so no movement radius
strictly smaller than the board span bounds accepted moves, and no
in-bounds Occupied-to-Empty move is ever rejected on distance alone. -/
theorem moveTank_no_distance_limit_counterexample :
    (moveTank gBattle 0 0 0 7 7).1 = true ∧
    (7 : Int) - 0 = BOARD_SIZE - 1 := by
  decide

/-- C9 amended.  The server checks no movement distance at all: in
Battle phase, a move by the turn owner with the guard clear, in-bounds
source and destination, an Occupied source and an Empty destination is
always accepted, whatever the distance between them. -/
theorem moveTank_accepts_any_distance (g : GameState) (pid fx fy tx ty : Int)
    (p : Player)
    (hphase : g.phase = GamePhase.battle) (hturn : g.currentTurn = pid)
    (hguard : g.actionTaken = false)
    (hp : getPlayer g.players pid = some p)
    (hfrom : Utils.isValidPosition fx fy = true)
    (hto : Utils.isValidPosition tx ty = true)
    (hsrc : Board.getCell p.board fx fy = CellState.tank)
    (hdst : Board.getCell p.board tx ty = CellState.empty) :
    (moveTank g pid fx fy tx ty).1 = true := by
  simp [moveTank, hp, hphase, hturn, hguard, hfrom, hto, hsrc, hdst]

/-- Witness for the amended C9: the corner-to-corner move in `gBattle`
is accepted. -/
theorem moveTank_accepts_any_distance_witness :
    (moveTank gBattle 0 0 0 7 7).1 = true :=
  moveTank_accepts_any_distance gBattle 0 0 0 7 7
    ((getPlayer gBattle.players 0).getD dummyPlayer)
    (by decide) (by decide) (by decide) (by decide) (by decide) (by decide)
    (by decide) (by decide)

/-! ## `getPlayer` / `setPlayer` lemmas -/

/-- A looked-up player slot is a member of the slot list. -/
lemma getPlayer_mem (ps : List Player) (i : Int) (p : Player)
    (h : getPlayer ps i = some p) : p ∈ ps := by
  unfold getPlayer at h
  split at h
  · exact absurd h (by simp)
  · have hi : i.toNat < ps.length := by
      by_contra hlen
      rw [List.getElem?_eq_none (by omega)] at h
      exact absurd h (by simp)
    rw [List.getElem?_eq_getElem hi] at h
    obtain rfl : ps[i.toNat] = p := by simpa using h
    exact ps.getElem_mem hi

/-- A successful lookup bounds the index. -/
lemma getPlayer_lt (ps : List Player) (i : Int) (p : Player)
    (h : getPlayer ps i = some p) : i.toNat < ps.length := by
  unfold getPlayer at h
  split at h
  · exact absurd h (by simp)
  · by_contra hlen
    rw [List.getElem?_eq_none (by omega)] at h
    exact absurd h (by simp)

/-- A successful lookup means the index is nonnegative-or-harmless:
`getPlayer` returns `none` on negative indices. -/
lemma getPlayer_nonneg (ps : List Player) (i : Int) (p : Player)
    (h : getPlayer ps i = some p) : ¬ i < 0 := by
  intro hi
  unfold getPlayer at h
  rw [if_pos hi] at h
  exact absurd h (by simp)

/-- Reading back the slot just written. -/
lemma getPlayer_setPlayer_self (ps : List Player) (i : Int) (p : Player)
    (hlen : i.toNat < ps.length) (hi : ¬ i < 0) :
    getPlayer (setPlayer ps i p) i = some p := by
  unfold getPlayer setPlayer
  rw [if_neg hi, List.getElem?_eq_getElem (by simpa using hlen)]
  simp [List.getElem_set_self]

/-- Writing one slot leaves the other slot's lookup unchanged. -/
lemma getPlayer_setPlayer_ne (ps : List Player) (i j : Int) (p : Player)
    (h : j.toNat ≠ i.toNat) :
    getPlayer (setPlayer ps j p) i = getPlayer ps i := by
  unfold getPlayer setPlayer
  by_cases hi : i < 0
  · rw [if_pos hi, if_pos hi]
  · rw [if_neg hi, if_neg hi, List.getElem?_set_ne h]

/-! ## C7: attacking a defender cell that is neither Occupied nor Empty -/

/-- A defender slot holding a stale `Hit` marker at (3,3) that the
attacker's observed board does not know about (the "inconsistent
external state" of the spec), plus a live tank at (7,7). -/
def pInconsistent : Player :=
  { freshPlayer 1 1 "B" with
      board := Board.setCell (Board.setCell Utils.createEmptyBoard 7 7 CellState.tank)
        3 3 CellState.hit
      tanks := [⟨7, 7⟩]
      tanksAlive := 1 }

/-- A battle-phase session whose defender board holds that stale `Hit`
cell. -/
def gInconsistent : GameState :=
  { gPlacement with
      phase := GamePhase.battle
      players := [freshPlayer 0 0 "A", pInconsistent] }

/-- C7 counterexample.  With the defender's cell at (3,3) equal to
`Hit` and the attacker's observed cell there still `Empty`, the attack
at (3,3) is *not* rejected as already-attacked: it returns the miss
result and consumes the turn (turn switches, move counter increments),
contradicting the claimed defensive alreadyAttacked-equivalent
failure. -/
theorem bomb_stale_cell_counterexample :
    Board.getCell pInconsistent.board 3 3 = CellState.hit ∧
    Board.getCell (freshPlayer 0 0 "A").visibleEnemyBoard 3 3 = CellState.empty ∧
    (bomb gInconsistent 0 3 3).1 = BombResult.missResult ∧
    (bomb gInconsistent 0 3 3).1 ≠ BombResult.alreadyBombed ∧
    (bomb gInconsistent 0 3 3).2.currentTurn = 1 ∧
    (bomb gInconsistent 0 3 3).2.moveCount = gInconsistent.moveCount + 1 := by
  decide

/-- C7 amended.  In Battle phase, an attack by the turn owner at
in-bounds coordinates whose observed cell is not `Hit`/`Miss` but whose
defending cell is neither `Occupied` nor `Empty` is treated as a miss:
it returns the miss result (not the already-attacked rejection), leaves
the defender's slot record (board included) unchanged, and consumes the
turn by switching the owner and incrementing the move counter. -/
theorem bomb_stale_cell_treated_as_miss (g : GameState) (pid x y : Int)
    (a d : Player) (hpid : pid = 0 ∨ pid = 1)
    (hphase : g.phase = GamePhase.battle) (hturn : g.currentTurn = pid)
    (hguard : g.actionTaken = false)
    (ha : getPlayer g.players pid = some a)
    (hd : getPlayer g.players (1 - pid) = some d)
    (hxy : Utils.isValidPosition x y = true)
    (hobs : ¬ (Board.getCell a.visibleEnemyBoard x y = CellState.hit ∨
               Board.getCell a.visibleEnemyBoard x y = CellState.miss))
    (htank : Board.getCell d.board x y ≠ CellState.tank)
    (hempty : Board.getCell d.board x y ≠ CellState.empty) :
    (bomb g pid x y).1 = BombResult.missResult ∧
    (bomb g pid x y).1 ≠ BombResult.alreadyBombed ∧
    getPlayer (bomb g pid x y).2.players (1 - pid) = some d ∧
    (bomb g pid x y).2.currentTurn = 1 - pid ∧
    (bomb g pid x y).2.moveCount = g.moveCount + 1 := by
  have hne : pid.toNat ≠ (1 - pid).toNat := by
    rcases hpid with rfl | rfl <;> decide
  have hlen : (1 - pid).toNat < g.players.length := getPlayer_lt _ _ _ hd
  have hnn : ¬ (1 - pid) < 0 := getPlayer_nonneg _ _ _ hd
  refine ⟨?_, ?_, ?_, ?_, ?_⟩
  · simp [bomb, ha, hd, hphase, hturn, hguard, hxy, hobs, htank, hempty]
  · simp [bomb, ha, hd, hphase, hturn, hguard, hxy, hobs, htank, hempty]
  · have hplayers :
        (bomb g pid x y).2.players =
          setPlayer (setPlayer g.players (1 - pid) d) pid (revealArea a d x y) := by
      simp [bomb, ha, hd, hphase, hturn, hguard, hxy, hobs, htank, hempty, switchTurn]
    rw [hplayers, getPlayer_setPlayer_ne _ _ _ _ hne,
      getPlayer_setPlayer_self _ _ _ hlen hnn]
  · simp [bomb, ha, hd, hphase, hturn, hguard, hxy, hobs, htank, hempty, switchTurn,
      hturn]
  · simp [bomb, ha, hd, hphase, hturn, hguard, hxy, hobs, htank, hempty, switchTurn]

/-- Witness for the amended C7 at the concrete state `gInconsistent`
(defender cell (3,3) holds a stale `Hit`). -/
theorem bomb_stale_cell_treated_as_miss_witness :
    (bomb gInconsistent 0 3 3).1 = BombResult.missResult ∧
    (bomb gInconsistent 0 3 3).1 ≠ BombResult.alreadyBombed ∧
    getPlayer (bomb gInconsistent 0 3 3).2.players (1 - 0) = some pInconsistent ∧
    (bomb gInconsistent 0 3 3).2.currentTurn = 1 - 0 ∧
    (bomb gInconsistent 0 3 3).2.moveCount = gInconsistent.moveCount + 1 :=
  bomb_stale_cell_treated_as_miss gInconsistent 0 3 3
    (freshPlayer 0 0 "A") pInconsistent (Or.inl rfl)
    (by decide) (by decide) (by decide) (by decide) (by decide) (by decide)
    (by decide) (by decide) (by decide)

/-! ## Association-list lemma -/

/-- Looking up the key just set. -/
lemma assocLookup_assocSet_self {α β : Type} [DecidableEq α]
    (l : List (α × β)) (k : α) (v : β) :
    assocLookup (assocSet l k v) k = some v := by
  induction l with
  | nil => simp [assocSet, assocLookup]
  | cons hd tl ih =>
    by_cases h : hd.1 = k
    · simp [assocSet, assocLookup, h]
    · simpa [assocSet, assocLookup, h] using ih

/-! ## Manager fixtures -/

/-- A registry holding the single battle-phase session `gBattle`, with
connections 0 and 1 bound to its two slots. -/
def mgrBattle : GameManager :=
  { games := [("ROOM", gBattle)],
    playerConnections := [(0, ("ROOM", 0)), (1, ("ROOM", 1))] }

/-- The registry after connection 1 leaves `mgrBattle` (all sockets
still reporting open; the leaver is excluded by identity). -/
def mgrAfterLeave : GameManager := GameManager.leaveGame mgrBattle (fun _ => true) 1

/-! ## C6: single-survivor reset -/

/-- C6 counterexample.  After one of the two battle-phase players
leaves, the session is reset exactly as claimed — kept alive, phase
`Waiting`, sole slot renumbered to 0, turn owner 0 — but the
survivor's subsequent placeUnit intent does NOT succeed: `placeTank`
rejects it because the phase is `Waiting`, not `Placement`. -/
theorem leave_then_place_counterexample :
    (assocLookup mgrAfterLeave.games "ROOM").map (fun g => g.phase) =
      some GamePhase.waiting ∧
    (assocLookup mgrAfterLeave.games "ROOM").map
      (fun g => g.players.map (fun p => p.id)) = some [0] ∧
    (assocLookup mgrAfterLeave.games "ROOM").map (fun g => g.currentTurn) =
      some 0 ∧
    (GameManager.placeTankById mgrAfterLeave "ROOM" 0 3 3).1 = false := by
  decide

/-- C6 amended.  When a connection bound to a non-`Waiting` session
leaves and exactly one connected slot remains, the session is reset in
place: it stays registered, its phase becomes `Waiting`, the surviving
slot is renumbered to 0 and the turn owner reset to 0 — but a
subsequent placeUnit intent (from any slot, at any coordinates) is
rejected, because `placeTank` requires the `Placement` phase, which is
only re-entered when a second player joins again. -/
theorem leave_resets_to_waiting (m : GameManager) (wsOpen : Nat → Bool)
    (ws : Nat) (gid : String) (pid0 : Int) (game : GameState) (survivor : Player)
    (hconn : assocLookup m.playerConnections ws = some (gid, pid0))
    (hgame : assocLookup m.games gid = some game)
    (hfilter : game.players.filter (fun p => wsOpen p.ws && p.ws ≠ ws) = [survivor])
    (hphase : game.phase ≠ GamePhase.waiting) :
    assocLookup (GameManager.leaveGame m wsOpen ws).games gid =
      some { game with
               phase := GamePhase.waiting
               players := [{ survivor with id := 0 }]
               currentTurn := 0 } ∧
    (∀ pid x y, (GameManager.placeTankById (GameManager.leaveGame m wsOpen ws)
        gid pid x y).1 = false) := by
  have hgames : (GameManager.leaveGame m wsOpen ws).games =
      assocSet m.games gid
        { game with
            phase := GamePhase.waiting
            players := [{ survivor with id := 0 }]
            currentTurn := 0 } := by
    have hf2 : List.filter (fun p => wsOpen p.ws && !decide (p.ws = ws))
        game.players = [survivor] := by simpa using hfilter
    simp [GameManager.leaveGame, hconn, hgame, hf2, hphase]
  have hlook : assocLookup (GameManager.leaveGame m wsOpen ws).games gid =
      some { game with
               phase := GamePhase.waiting
               players := [{ survivor with id := 0 }]
               currentTurn := 0 } := by
    rw [hgames]; exact assocLookup_assocSet_self _ _ _
  refine ⟨hlook, fun pid x y => ?_⟩
  simp [GameManager.placeTankById, hlook, placeTank]

/-- Witness for the amended C6 at the concrete registry `mgrBattle`. -/
theorem leave_resets_to_waiting_witness :
    assocLookup (GameManager.leaveGame mgrBattle (fun _ => true) 1).games "ROOM" =
      some { gBattle with
               phase := GamePhase.waiting
               players := [{ ((getPlayer gBattle.players 0).getD dummyPlayer) with
                               id := 0 }]
               currentTurn := 0 } ∧
    (∀ pid x y, (GameManager.placeTankById
        (GameManager.leaveGame mgrBattle (fun _ => true) 1) "ROOM" pid x y).1 =
      false) :=
  leave_resets_to_waiting mgrBattle (fun _ => true) 1 "ROOM" 1 gBattle
    ((getPlayer gBattle.players 0).getD dummyPlayer)
    (by decide) (by decide) (by decide) (by decide)

/-! ## C10: joining a full session -/

/-- C10.  A join naming an existing session that already has two
player slots is rejected as full with the whole registry unchanged: in
particular the joining connection's binding to any other session is
intact, because the idempotent leave runs only after the target is
found non-full. -/
theorem joinGame_full_rejected (m : GameManager) (gid0 : String) (ws : Nat)
    (playerName : Option String) (defaultName : String) (now : Nat)
    (wsOpen : Nat → Bool) (g : GameState)
    (hg : assocLookup m.games (jsToUpper gid0) = some g)
    (hfull : g.players.length ≥ 2) :
    GameManager.joinGame m gid0 ws playerName defaultName now wsOpen =
      (JoinOutcome.gameIsFull, m) := by
  simp [GameManager.joinGame, hg, hfull]

/-- Witness for C10: joining the full session `"room"` (case-folded to
`"ROOM"`) of `mgrBattle` from a fresh connection is rejected with the
registry unchanged. -/
theorem joinGame_full_rejected_witness :
    GameManager.joinGame mgrBattle "room" 5 none "X" 0 (fun _ => true) =
      (JoinOutcome.gameIsFull, mgrBattle) :=
  joinGame_full_rejected mgrBattle "room" 5 none "X" 0 (fun _ => true) gBattle
    (by decide) (by decide)


/-! ## Board counting and well-formedness (C1 infrastructure) -/

/-- 1 for an Occupied (`TANK`) cell, 0 otherwise. -/
def tankInd (c : CellState) : Nat := if c = CellState.tank then 1 else 0

/-- Number of `TANK` cells in one row. -/
def tankCountRow (r : List CellState) : Nat := (r.map tankInd).sum

/-- Number of `TANK` (Occupied) cells on a board. -/
def tankCount (b : Board) : Nat := (b.map tankCountRow).sum

/-- An 8×8 board (every board the server ever builds). -/
abbrev BoardWF (b : Board) : Prop := b.length = 8 ∧ ∀ r ∈ b, r.length = 8

/-- Per-slot invariant of C1: a well-formed own board whose number of
Occupied cells equals the alive-unit counter. -/
abbrev PlayerInv (p : Player) : Prop :=
  BoardWF p.board ∧ p.tanksAlive = (tankCount p.board : Int)

/-- Session-wide invariant of C1. -/
abbrev TanksInv (g : GameState) : Prop := ∀ p ∈ g.players, PlayerInv p

/-- Setting one entry moves a `sum ∘ map` by the difference at that
entry (subtraction-free formulation). -/
lemma sum_map_set {α : Type} (f : α → Nat) :
    ∀ (l : List α) (i : Nat) (v : α) (h : i < l.length),
      ((l.set i v).map f).sum + f (l.get ⟨i, h⟩) = (l.map f).sum + f v := by
  intro l
  induction l with
  | nil => intro i v h; simp at h
  | cons hd tl ih =>
    intro i v h
    cases i with
    | zero => simp [List.set]; omega
    | succ n =>
      have hn : n < tl.length := by simpa using h
      have := ih n v hn
      simp only [List.set, List.map, List.sum_cons, List.get]
      omega

/-- Bounds extracted from `isValidPosition`. -/
lemma isValid_bounds {x y : Int} (h : Utils.isValidPosition x y = true) :
    x.toNat < 8 ∧ y.toNat < 8 := by
  unfold Utils.isValidPosition BOARD_SIZE at h
  simp only [Bool.and_eq_true, decide_eq_true_eq] at h
  omega

/-- `getCell` through `getElem?`. -/
lemma getCell_eq (b : Board) (x y : Int) :
    Board.getCell b x y = ((b[y.toNat]?.getD [])[x.toNat]?).getD CellState.empty := by
  unfold Board.getCell
  rw [List.getD_eq_getElem?_getD, List.getD_eq_getElem?_getD]

/-- `setCell` with the touched row spelled out, under a valid row
index. -/
lemma setCell_eq (b : Board) (x y : Int) (v : CellState)
    (hyb : y.toNat < b.length) :
    Board.setCell b x y v = b.set y.toNat (b[y.toNat].set x.toNat v) := by
  unfold Board.setCell
  rw [List.getD_eq_getElem b [] hyb]

/-- `setCell` at a valid position preserves well-formedness. -/
lemma boardWF_setCell (b : Board) (x y : Int) (v : CellState)
    (hwf : BoardWF b) (hxy : Utils.isValidPosition x y = true) :
    BoardWF (Board.setCell b x y v) := by
  obtain ⟨hlen, hrows⟩ := hwf
  obtain ⟨hx, hy⟩ := isValid_bounds hxy
  have hyb : y.toNat < b.length := by omega
  rw [setCell_eq b x y v hyb]
  constructor
  · simpa using hlen
  · intro r hr
    rcases List.mem_or_eq_of_mem_set hr with hmem | rfl
    · exact hrows r hmem
    · rw [List.length_set]
      exact hrows _ (b.getElem_mem hyb)

/-- `setCell`/`getCell` at the same valid position. -/
lemma getCell_setCell_self (b : Board) (x y : Int) (v : CellState)
    (hwf : BoardWF b) (hxy : Utils.isValidPosition x y = true) :
    Board.getCell (Board.setCell b x y v) x y = v := by
  obtain ⟨hlen, hrows⟩ := hwf
  obtain ⟨hx, hy⟩ := isValid_bounds hxy
  have hyb : y.toNat < b.length := by omega
  have hrow : b[y.toNat].length = 8 := hrows _ (b.getElem_mem hyb)
  have hxr : x.toNat < b[y.toNat].length := by omega
  rw [setCell_eq b x y v hyb, getCell_eq,
    List.getElem?_set_self hyb]
  simp only [Option.getD_some]
  rw [List.getElem?_set_self hxr]
  rfl

/-- `setCell`/`getCell` at distinct valid positions. -/
lemma getCell_setCell_ne (b : Board) (x y u w : Int) (v : CellState)
    (hwf : BoardWF b) (hxy : Utils.isValidPosition x y = true)
    (huw : Utils.isValidPosition u w = true)
    (hne : ¬ (u = x ∧ w = y)) :
    Board.getCell (Board.setCell b x y v) u w = Board.getCell b u w := by
  obtain ⟨hlen, hrows⟩ := hwf
  obtain ⟨hx, hy⟩ := isValid_bounds hxy
  obtain ⟨hu, hw⟩ := isValid_bounds huw
  have h0 : 0 ≤ x ∧ 0 ≤ y ∧ 0 ≤ u ∧ 0 ≤ w := by
    unfold Utils.isValidPosition BOARD_SIZE at hxy huw
    simp only [Bool.and_eq_true, decide_eq_true_eq] at hxy huw
    omega
  have hyb : y.toNat < b.length := by omega
  rw [setCell_eq b x y v hyb, getCell_eq, getCell_eq]
  by_cases hsr : w.toNat = y.toNat
  · have hxu : x.toNat ≠ u.toNat := by
      intro hc
      exact hne ⟨by omega, by omega⟩
    rw [hsr, List.getElem?_set_self hyb]
    simp only [Option.getD_some]
    rw [List.getElem?_set_ne hxu]
    have : b[y.toNat]? = some b[y.toNat] := List.getElem?_eq_getElem hyb
    rw [this]
    simp only [Option.getD_some]
  · rw [List.getElem?_set_ne (by omega : y.toNat ≠ w.toNat)]

/-- The C1 counting identity: a single-cell write moves the Occupied
count by the indicator difference between the old and new cell. -/
lemma tankCount_setCell (b : Board) (x y : Int) (v : CellState)
    (hwf : BoardWF b) (hxy : Utils.isValidPosition x y = true) :
    tankCount (Board.setCell b x y v) + tankInd (Board.getCell b x y) =
      tankCount b + tankInd v := by
  obtain ⟨hlen, hrows⟩ := hwf
  obtain ⟨hx, hy⟩ := isValid_bounds hxy
  have hyb : y.toNat < b.length := by omega
  have hrow : b[y.toNat].length = 8 := hrows _ (b.getElem_mem hyb)
  have hxr : x.toNat < b[y.toNat].length := by omega
  have houter : tankCount (b.set y.toNat (b[y.toNat].set x.toNat v)) +
      tankCountRow b[y.toNat] =
      tankCount b + tankCountRow (b[y.toNat].set x.toNat v) := by
    have h := sum_map_set tankCountRow b y.toNat (b[y.toNat].set x.toNat v) hyb
    simpa [tankCount] using h
  have hinner : tankCountRow (b[y.toNat].set x.toNat v) +
      tankInd b[y.toNat][x.toNat] =
      tankCountRow b[y.toNat] + tankInd v := by
    have h := sum_map_set tankInd b[y.toNat] x.toNat v hxr
    simpa [tankCountRow] using h
  have hget : Board.getCell b x y = b[y.toNat][x.toNat] := by
    rw [getCell_eq, List.getElem?_eq_getElem hyb]
    simp only [Option.getD_some]
    rw [List.getElem?_eq_getElem hxr]
    rfl
  rw [setCell_eq b x y v hyb, hget]
  omega

/-! ## `revealArea` as a pure board fold -/

/-- The value `revealArea` writes at a cell: the defender's true state,
with anything that is not `TANK`/`HIT`/`MISS` disclosed as
`REVEALED`. -/
def revealValue (d : Board) (x y : Int) : CellState :=
  if Board.getCell d x y = CellState.tank then CellState.tank
  else if Board.getCell d x y = CellState.hit then CellState.hit
  else if Board.getCell d x y = CellState.miss then CellState.miss
  else CellState.revealed

/-- The observed-board effect of revealing the offsets in `L` around
`(cx, cy)` against defender board `d`. -/
def revealFoldList (v d : Board) (cx cy : Int) (L : List (Int × Int)) : Board :=
  L.foldl
    (fun b off =>
      if Utils.isValidPosition (cx + off.1) (cy + off.2) then
        Board.setCell b (cx + off.1) (cy + off.2)
          (revealValue d (cx + off.1) (cy + off.2))
      else b) v

/-- One reveal step touches only the observed board, writing
`revealValue`. -/
lemma revealCell_eq (a dP : Player) (x y : Int) :
    revealCell a dP x y =
      { a with visibleEnemyBoard :=
          if Utils.isValidPosition x y then
            Board.setCell a.visibleEnemyBoard x y (revealValue dP.board x y)
          else a.visibleEnemyBoard } := by
  unfold revealCell revealValue
  by_cases h : Utils.isValidPosition x y = true
  · rw [if_pos h, if_pos h]
  · rw [if_neg h, if_neg h]

/-- Folding reveal steps over any offset list touches only the
observed board, as described by `revealFoldList`. -/
lemma revealFold_general (dP : Player) (cx cy : Int) :
    ∀ (L : List (Int × Int)) (a : Player),
      L.foldl (fun a d => revealCell a dP (cx + d.1) (cy + d.2)) a =
        { a with visibleEnemyBoard :=
            revealFoldList a.visibleEnemyBoard dP.board cx cy L } := by
  intro L
  induction L with
  | nil => intro a; simp [revealFoldList]
  | cons t L ih =>
    intro a
    simp only [List.foldl_cons]
    rw [ih (revealCell a dP (cx + t.1) (cy + t.2)), revealCell_eq]
    simp [revealFoldList]

/-- `revealArea` only rewrites the attacker's observed board. -/
lemma revealArea_eq_fold (a dP : Player) (cx cy : Int) :
    revealArea a dP cx cy =
      { a with visibleEnemyBoard :=
          revealFoldList a.visibleEnemyBoard dP.board cx cy revealOffsets } := by
  unfold revealArea
  exact revealFold_general dP cx cy revealOffsets a

/-- Updating one slot with an invariant-satisfying record preserves the
slot-wise invariant. -/
lemma TanksInv_set (ps : List Player) (i : Int) (p' : Player)
    (h : ∀ p ∈ ps, PlayerInv p) (hp' : PlayerInv p') :
    ∀ p ∈ setPlayer ps i p', PlayerInv p := by
  intro p hp
  rcases List.mem_or_eq_of_mem_set hp with hm | rfl
  · exact h p hm
  · exact hp'

/-- `placeTank` preserves the C1 invariant: the placement path writes
`TANK` into an `Empty` cell and increments the alive counter
together. -/
lemma TanksInv_placeTank (g : GameState) (pid x y : Int) (h : TanksInv g) :
    TanksInv (placeTank g pid x y).2 := by
  unfold placeTank
  split
  · exact h
  split
  · exact h
  rename_i player hplayer
  split
  · exact h
  split
  · exact h
  split
  · exact h
  rename_i hlen hvalid hcell
  have hv : Utils.isValidPosition x y = true := by
    by_contra hc
    exact hvalid (by simpa using hc)
  have hc : Board.getCell player.board x y = CellState.empty := by
    by_contra hc
    exact hcell hc
  obtain ⟨hwf, hcount⟩ := h player (getPlayer_mem _ _ _ hplayer)
  have hcount1 : tankCount (Board.setCell player.board x y CellState.tank) =
      tankCount player.board + 1 := by
    have hstep := tankCount_setCell player.board x y CellState.tank hwf hv
    rw [hc] at hstep
    simp [tankInd] at hstep
    omega
  have hinv1 : PlayerInv
      { player with
          board := Board.setCell player.board x y CellState.tank
          tanks := player.tanks ++ [⟨x, y⟩]
          tanksAlive := player.tanksAlive + 1 } := by
    refine ⟨boardWF_setCell _ _ _ _ hwf hv, ?_⟩
    show player.tanksAlive + 1 = _
    rw [hcount1]
    push_cast
    omega
  dsimp only
  split
  · intro p hp
    split at hp
    · refine TanksInv_set g.players pid _ h ?_ p hp
      exact hinv1
    · refine TanksInv_set g.players pid _ h ?_ p hp
      exact hinv1
  · intro p hp
    split at hp
    · refine TanksInv_set g.players pid _ h ?_ p hp
      exact hinv1
    · refine TanksInv_set g.players pid _ h ?_ p hp
      exact hinv1

/-- `moveTank` preserves the C1 invariant: the move clears an Occupied
cell and occupies an Empty one, leaving the count unchanged, and never
touches the alive counter. -/
lemma TanksInv_moveTank (g : GameState) (pid fx fy tx ty : Int)
    (h : TanksInv g) : TanksInv (moveTank g pid fx fy tx ty).2 := by
  unfold moveTank
  split
  · exact h
  split
  · exact h
  rename_i player hplayer
  split
  · exact h
  split
  · exact h
  rename_i hpos hcells
  have hposb : Utils.isValidPosition fx fy = true ∧
      Utils.isValidPosition tx ty = true := by
    by_contra hc
    exact hpos (by simpa [not_and_or] using hc)
  obtain ⟨hfrom, hto⟩ := hposb
  push_neg at hcells
  obtain ⟨hsrc, hdst⟩ := hcells
  obtain ⟨hwf, hcount⟩ := h player (getPlayer_mem _ _ _ hplayer)
  have hne : ¬ (tx = fx ∧ ty = fy) := by
    rintro ⟨rfl, rfl⟩
    rw [hsrc] at hdst
    exact absurd hdst (by simp)
  have hwf1 : BoardWF (Board.setCell player.board fx fy CellState.empty) :=
    boardWF_setCell _ _ _ _ hwf hfrom
  have hc1 : tankCount (Board.setCell player.board fx fy CellState.empty) + 1 =
      tankCount player.board := by
    have hstep := tankCount_setCell player.board fx fy CellState.empty hwf hfrom
    rw [hsrc] at hstep
    simpa [tankInd] using hstep
  have hmid : Board.getCell (Board.setCell player.board fx fy CellState.empty)
      tx ty = CellState.empty := by
    rw [getCell_setCell_ne player.board fx fy tx ty CellState.empty hwf hfrom
      hto hne]
    exact hdst
  have hc2 : tankCount (Board.setCell
      (Board.setCell player.board fx fy CellState.empty) tx ty CellState.tank) =
      tankCount player.board := by
    have hstep := tankCount_setCell (Board.setCell player.board fx fy CellState.empty)
      tx ty CellState.tank hwf1 hto
    rw [hmid] at hstep
    simp [tankInd] at hstep
    omega
  dsimp only
  intro p hp
  refine TanksInv_set g.players pid _ h ?_ p (by simpa [switchTurn] using hp)
  refine ⟨boardWF_setCell _ _ _ _ hwf1 hto, ?_⟩
  show player.tanksAlive = _
  rw [hc2]
  exact hcount

/-- `bomb` preserves the C1 invariant: a hit converts exactly one
Occupied cell to `Hit` and decrements the alive counter with it; a
miss writes only non-Occupied cells; reveals touch only the observed
board. -/
lemma TanksInv_bomb (g : GameState) (pid x y : Int) (h : TanksInv g) :
    TanksInv (bomb g pid x y).2 := by
  unfold bomb
  split
  · exact h
  split
  · rename_i attacker defender hatt hdef
    split
    · exact h
    split
    · exact h
    rename_i hpos hobs
    have hv : Utils.isValidPosition x y = true := by
      by_contra hc
      exact hpos (by simpa using hc)
    obtain ⟨hwfD, hcountD⟩ := h defender (getPlayer_mem _ _ _ hdef)
    obtain ⟨hwfA, hcountA⟩ := h attacker (getPlayer_mem _ _ _ hatt)
    dsimp only
    split
    · rename_i ht
      have hcD : tankCount (Board.setCell defender.board x y CellState.hit) + 1 =
          tankCount defender.board := by
        have hstep := tankCount_setCell defender.board x y CellState.hit hwfD hv
        rw [ht] at hstep
        simpa [tankInd] using hstep
      split
      · intro p hp
        refine TanksInv_set g.players (1 - pid) _ h ?_ p hp
        refine ⟨boardWF_setCell _ _ _ _ hwfD hv, ?_⟩
        show defender.tanksAlive - 1 =
          (tankCount (Board.setCell defender.board x y CellState.hit) : Int)
        omega
      · intro p hp
        refine TanksInv_set _ pid _
          (TanksInv_set g.players (1 - pid) _ h ?_) ?_ p
          (by simpa [switchTurn] using hp)
        · refine ⟨boardWF_setCell _ _ _ _ hwfD hv, ?_⟩
          show defender.tanksAlive - 1 =
            (tankCount (Board.setCell defender.board x y CellState.hit) : Int)
          omega
        · rw [revealArea_eq_fold]
          exact ⟨hwfA, hcountA⟩
    · rename_i ht
      intro p hp
      have hinvD1 : PlayerInv
          (if Board.getCell defender.board x y = CellState.empty then
            { defender with
                board := Board.setCell defender.board x y CellState.miss }
          else defender) := by
        split
        · rename_i hemp
          refine ⟨boardWF_setCell _ _ _ _ hwfD hv, ?_⟩
          show defender.tanksAlive =
            (tankCount (Board.setCell defender.board x y CellState.miss) : Int)
          have hstep := tankCount_setCell defender.board x y CellState.miss hwfD hv
          rw [hemp] at hstep
          simp [tankInd] at hstep
          omega
        · exact ⟨hwfD, hcountD⟩
      refine TanksInv_set _ pid _
        (TanksInv_set g.players (1 - pid) _ h hinvD1) ?_ p
        (by simpa [switchTurn] using hp)
      rw [revealArea_eq_fold]
      exact ⟨hwfA, hcountA⟩
  · exact h

/-! ## C1: alive counter = number of Occupied cells -/

/-- C1.  The slot record every join creates satisfies the alive-count
invariant (`units-alive = number of Occupied cells on the own board`),
and each of the three gameplay operations — place, move, attack —
preserves it for every slot of the session, whatever its arguments:
place writes `TANK` into an `Empty` cell and increments the counter
together with it, a hit converts exactly one Occupied cell to `Hit`
and decrements the counter with it, and a move clears one Occupied
cell while occupying another.  Hence the equality holds in every
reachable session state. -/
theorem alive_count_matches_board (g : GameState) (h : TanksInv g)
    (i : Int) (w : Nat) (nm : String) (pid x y fx fy tx ty bx bw : Int) :
    PlayerInv (freshPlayer i w nm) ∧
    TanksInv (placeTank g pid x y).2 ∧
    TanksInv (moveTank g pid fx fy tx ty).2 ∧
    TanksInv (bomb g pid bx bw).2 :=
  ⟨⟨show BoardWF Utils.createEmptyBoard by decide,
    show (0 : Int) = (tankCount Utils.createEmptyBoard : Int) by decide⟩,
   TanksInv_placeTank g pid x y h,
   TanksInv_moveTank g pid fx fy tx ty h,
   TanksInv_bomb g pid bx bw h⟩

/-- Witness for C1 at the reachable battle state `gBattle` (obtained
by six real placements), exercising a placement attempt, the move
(1,0)→(1,1) and the attack at (5,5). -/
theorem alive_count_matches_board_witness :
    PlayerInv (freshPlayer 0 7 "C") ∧
    TanksInv (placeTank gBattle 0 3 3).2 ∧
    TanksInv (moveTank gBattle 0 1 0 1 1).2 ∧
    TanksInv (bomb gBattle 0 5 5).2 :=
  alive_count_matches_board gBattle (by decide) 0 7 "C" 0 3 3 1 0 1 1 5 5

/-! ## Pointwise behaviour of the reveal fold (C5) -/

/-- The reveal fold preserves board well-formedness. -/
lemma revealFoldList_wf (d : Board) (cx cy : Int) :
    ∀ (L : List (Int × Int)) (v : Board), BoardWF v →
      BoardWF (revealFoldList v d cx cy L) := by
  intro L
  induction L with
  | nil => intro v hv; simpa [revealFoldList] using hv
  | cons t L ih =>
    intro v hv
    rw [show revealFoldList v d cx cy (t :: L) =
        revealFoldList
          (if Utils.isValidPosition (cx + t.1) (cy + t.2) then
            Board.setCell v (cx + t.1) (cy + t.2)
              (revealValue d (cx + t.1) (cy + t.2))
          else v) d cx cy L from rfl]
    apply ih
    by_cases hval : Utils.isValidPosition (cx + t.1) (cy + t.2) = true
    · rw [if_pos hval]
      exact boardWF_setCell _ _ _ _ hv hval
    · rw [if_neg hval]
      exact hv

/-- Pointwise description of the reveal fold: an in-bounds cell hit by
an offset of `L` receives `revealValue` of the defender board; all
other cells keep their previous observed value. -/
lemma getCell_revealFoldList (d : Board) (cx cy x y : Int)
    (hxy : Utils.isValidPosition x y = true) :
    ∀ (L : List (Int × Int)) (v : Board), BoardWF v →
      Board.getCell (revealFoldList v d cx cy L) x y =
        if ∃ off ∈ L, cx + off.1 = x ∧ cy + off.2 = y then revealValue d x y
        else Board.getCell v x y := by
  intro L
  induction L with
  | nil => intro v hv; simp [revealFoldList]
  | cons t L ih =>
    intro v hv
    have hstepwf : BoardWF
        (if Utils.isValidPosition (cx + t.1) (cy + t.2) then
          Board.setCell v (cx + t.1) (cy + t.2)
            (revealValue d (cx + t.1) (cy + t.2))
        else v) := by
      by_cases hval : Utils.isValidPosition (cx + t.1) (cy + t.2) = true
      · rw [if_pos hval]
        exact boardWF_setCell _ _ _ _ hv hval
      · rw [if_neg hval]
        exact hv
    rw [show revealFoldList v d cx cy (t :: L) =
        revealFoldList
          (if Utils.isValidPosition (cx + t.1) (cy + t.2) then
            Board.setCell v (cx + t.1) (cy + t.2)
              (revealValue d (cx + t.1) (cy + t.2))
          else v) d cx cy L from rfl]
    rw [ih _ hstepwf]
    by_cases hL : ∃ off ∈ L, cx + off.1 = x ∧ cy + off.2 = y
    · have hcons : ∃ off ∈ t :: L, cx + off.1 = x ∧ cy + off.2 = y := by
        obtain ⟨off, hoff, he⟩ := hL
        exact ⟨off, List.mem_cons_of_mem t hoff, he⟩
      rw [if_pos hL, if_pos hcons]
    · rw [if_neg hL]
      by_cases hmatch : cx + t.1 = x ∧ cy + t.2 = y
      · have hcons : ∃ off ∈ t :: L, cx + off.1 = x ∧ cy + off.2 = y :=
          ⟨t, List.mem_cons_self t L, hmatch⟩
        rw [if_pos hcons]
        obtain ⟨hm1, hm2⟩ := hmatch
        rw [hm1, hm2, if_pos hxy]
        exact getCell_setCell_self v x y _ hv hxy
      · have hnocons : ¬ ∃ off ∈ t :: L, cx + off.1 = x ∧ cy + off.2 = y := by
          rintro ⟨off, hoff, he⟩
          rcases List.mem_cons.mp hoff with rfl | hmem
          · exact hmatch he
          · exact hL ⟨off, hmem, he⟩
        rw [if_neg hnocons]
        by_cases hval : Utils.isValidPosition (cx + t.1) (cy + t.2) = true
        · rw [if_pos hval]
          refine getCell_setCell_ne v (cx + t.1) (cy + t.2) x y _ hv hval hxy ?_
          rintro ⟨h1, h2⟩
          exact hmatch ⟨h1.symm, h2.symm⟩
        · rw [if_neg hval]

/-- The nine reveal offsets hit exactly the Chebyshev-1 ball around
the centre. -/
lemma exists_mem_revealOffsets_iff (cx cy x y : Int) :
    (∃ off ∈ revealOffsets, cx + off.1 = x ∧ cy + off.2 = y) ↔
      (-1 ≤ x - cx ∧ x - cx ≤ 1 ∧ -1 ≤ y - cy ∧ y - cy ≤ 1) := by
  constructor
  · rintro ⟨off, hmem, h1, h2⟩
    fin_cases hmem <;> omega
  · rintro ⟨h1, h2, h3, h4⟩
    refine ⟨(x - cx, y - cy), ?_, by ring, by ring⟩
    have hx : x - cx = -1 ∨ x - cx = 0 ∨ x - cx = 1 := by omega
    have hy : y - cy = -1 ∨ y - cy = 0 ∨ y - cy = 1 := by omega
    rcases hx with h | h | h <;> rcases hy with h' | h' | h' <;>
      rw [h, h'] <;> simp [revealOffsets]

/-- Two well-formed boards agreeing on every in-bounds cell are
equal. -/
lemma board_ext (b b' : Board) (hb : BoardWF b) (hb' : BoardWF b')
    (h : ∀ x y : Int, Utils.isValidPosition x y = true →
      Board.getCell b x y = Board.getCell b' x y) : b = b' := by
  obtain ⟨hl, hr⟩ := hb
  obtain ⟨hl', hr'⟩ := hb'
  apply List.ext_getElem (by omega)
  intro i h1 h2
  have hrowi : b[i].length = 8 := hr _ (b.getElem_mem h1)
  have hrowi' : b'[i].length = 8 := hr' _ (b'.getElem_mem h2)
  apply List.ext_getElem (by omega)
  intro j hj1 hj2
  have hj8 : j < 8 := by omega
  have hi8 : i < 8 := by omega
  have hvalid : Utils.isValidPosition (j : Int) (i : Int) = true := by
    unfold Utils.isValidPosition BOARD_SIZE
    simp only [Bool.and_eq_true, decide_eq_true_eq]
    omega
  have hcells := h (j : Int) (i : Int) hvalid
  rw [getCell_eq, getCell_eq] at hcells
  simp only [Int.toNat_natCast] at hcells
  rw [List.getElem?_eq_getElem h1, List.getElem?_eq_getElem h2] at hcells
  simp only [Option.getD_some] at hcells
  rw [List.getElem?_eq_getElem (by omega : j < b[i].length),
    List.getElem?_eq_getElem (by omega : j < b'[i].length)] at hcells
  simpa using hcells

/-! ## C5: what `revealArea` actually guarantees -/

/-- C5 counterexample.  In the play sequence from `gPlacement`:
slot 0's miss at (4,5) reveals slot 1's tank at (5,5) — the observed
cell becomes `TANK` — then slot 1 moves that tank away, and slot 0's
next miss at (5,4) re-covers (5,5), overwriting the observed `TANK`
with `REVEALED`.  A reveal thus moved an Observed Board cell *back*
from the informative Occupied state, refuting monotonicity (the
original cell was not `Empty`, and its new value differs). -/
theorem reveal_not_monotone_counterexample :
    (getPlayer gAfterM1.players 0).map
        (fun p => Board.getCell p.visibleEnemyBoard 5 5) = some CellState.tank ∧
    gAfterB2 = (bomb gAfterM1 0 5 4).2 ∧
    (getPlayer gAfterB2.players 0).map
        (fun p => Board.getCell p.visibleEnemyBoard 5 5) =
      some CellState.revealed ∧
    CellState.tank ≠ CellState.revealed ∧ CellState.tank ≠ CellState.empty := by
  decide

/-- C5 amended.  `revealArea` overwrites every in-bounds cell within
Chebyshev distance 1 of the centre with the projection of the
defender's *current* cell (`TANK`/`HIT`/`MISS` copied, anything else
disclosed as `REVEALED`) and leaves all other cells unchanged; the
written value is never `Empty`, so a cell never returns to the unknown
state and cells observed `Empty` only gain information; and applying
the same reveal twice with an unchanged defender board leaves the
observed board identical to applying it once (idempotence).  However,
because the written value ignores the previous observed value, an
Occupied observed cell can regress to `Revealed` once the defender's
unit has moved away — the monotonicity half of the original claim
holds only for cells whose defender state did not change. -/
theorem revealArea_characterized_idempotent (a d : Player) (cx cy : Int)
    (hwf : BoardWF a.visibleEnemyBoard) :
    (∀ x y : Int, Utils.isValidPosition x y = true →
      Board.getCell (revealArea a d cx cy).visibleEnemyBoard x y =
        if -1 ≤ x - cx ∧ x - cx ≤ 1 ∧ -1 ≤ y - cy ∧ y - cy ≤ 1 then
          revealValue d.board x y
        else Board.getCell a.visibleEnemyBoard x y) ∧
    (∀ x y : Int, revealValue d.board x y ≠ CellState.empty) ∧
    revealArea (revealArea a d cx cy) d cx cy = revealArea a d cx cy := by
  refine ⟨?_, ?_, ?_⟩
  · intro x y hxy
    rw [revealArea_eq_fold]
    show Board.getCell
      (revealFoldList a.visibleEnemyBoard d.board cx cy revealOffsets) x y = _
    rw [getCell_revealFoldList d.board cx cy x y hxy revealOffsets
      a.visibleEnemyBoard hwf]
    simp only [exists_mem_revealOffsets_iff]
  · intro x y
    unfold revealValue
    split
    · simp
    split
    · simp
    split
    · simp
    · simp
  · have hwf1 : BoardWF
        (revealFoldList a.visibleEnemyBoard d.board cx cy revealOffsets) :=
      revealFoldList_wf _ _ _ _ _ hwf
    have hboards : revealFoldList
        (revealFoldList a.visibleEnemyBoard d.board cx cy revealOffsets)
        d.board cx cy revealOffsets =
        revealFoldList a.visibleEnemyBoard d.board cx cy revealOffsets := by
      apply board_ext _ _ (revealFoldList_wf _ _ _ _ _ hwf1) hwf1
      intro x y hxy
      rw [getCell_revealFoldList d.board cx cy x y hxy revealOffsets _ hwf1]
      by_cases hc : ∃ off ∈ revealOffsets, cx + off.1 = x ∧ cy + off.2 = y
      · rw [if_pos hc,
          getCell_revealFoldList d.board cx cy x y hxy revealOffsets _ hwf,
          if_pos hc]
      · rw [if_neg hc]
    rw [revealArea_eq_fold a d cx cy, revealArea_eq_fold]
    dsimp only
    rw [hboards]

/-- Witness for the amended C5 at the concrete players of `gAfterM1`
and the centre (5,4) actually bombed in the counterexample run. -/
theorem revealArea_characterized_idempotent_witness :
    (∀ x y : Int, Utils.isValidPosition x y = true →
      Board.getCell (revealArea p0AfterM1 p1AfterM1 5 4).visibleEnemyBoard x y =
        if -1 ≤ x - 5 ∧ x - 5 ≤ 1 ∧ -1 ≤ y - 4 ∧ y - 4 ≤ 1 then
          revealValue p1AfterM1.board x y
        else Board.getCell p0AfterM1.visibleEnemyBoard x y) ∧
    (∀ x y : Int, revealValue p1AfterM1.board x y ≠ CellState.empty) ∧
    revealArea (revealArea p0AfterM1 p1AfterM1 5 4) p1AfterM1 5 4 =
      revealArea p0AfterM1 p1AfterM1 5 4 :=
  revealArea_characterized_idempotent p0AfterM1 p1AfterM1 5 4 (by decide)
